import Mathlib

/-
Verification development for a browser front-end that creates, mints, sends
and lists fungible tokens on a Solana-style network.

The development shallowly embeds the code that the specification talks
about:

* `src/utils/connection.ts` — the connection cache (`getReliableConnection`)
  and the retry wrapper (`withRetry`).  The cache is modelled as explicit
  state (an association list keyed by endpoint, plus a counter that models
  object identity of freshly constructed handles).  The retry wrapper is
  modelled over an attempt oracle `fn : Nat → Except JsVal α` giving the
  outcome of each attempt; the result records the outcome together with the
  number of attempts performed and the number of sleeps taken, so that the
  backoff schedule of the source (sleep only when `attempt < maxRetries`)
  is observable.

* The form panels (`SendToken.tsx`, the mint panel, `CreateToken.tsx`, and
  the two legacy panel revisions kept in the repository) — each handler is
  modelled as a pure function from an environment (the wallet identity and
  the results the external wallet / RPC collaborators would return) and the
  panel state (the React state the render closure captured) to the updated
  panel state together with a trace of observable events: toasts, RPC
  calls, the wallet submission with the full instruction list, and the
  confirmation call with the blockhash anchor it passes (or `none` when the
  source confirms by signature only).  React `setX` calls update the
  returned state, while reads inside the handler see the render-time state,
  exactly as a JS closure does; this distinction is kept because the mint
  panel reads the stale `decimals` state and the create panel reads the
  stale `lastSignature` state.

* Whole-token to raw-unit conversion.  The panels compute amounts with JS
  double arithmetic.  Integer-valued doubles are modelled by `fl53`, the
  rounding of a nonnegative integer to the nearest binary64 value
  (round-to-nearest, ties-to-even): for exactly representable operands a
  JS multiplication returns `fl53` of the exact product, `Math.pow 10 d`
  is exactly `10 ^ d` for `d ≤ 22`, `Math.floor` is the identity on
  integer-valued doubles, and `BigInt` of an integer-valued double is
  exact.  Awaited read calls that a panel does not branch on are modelled
  as succeeding oracles; every failure path the panel itself distinguishes
  (mint lookup, submission, confirmation) is modelled by an `Except`
  oracle feeding the shared catch/finally structure of the source.
-/

/-! ## Integer-valued binary64 arithmetic -/

/-- Number of halvings needed before `n` drops below `2 ^ 53`, computed with
structural fuel (binary64 values are far below `2 ^ 1100`, so the fuel used
by `excess` is never exhausted on inputs a JS number can take). -/
def excessAux : Nat → Nat → Nat
  | 0, _ => 0
  | fuel + 1, n => if n < 2 ^ 53 then 0 else excessAux fuel (n / 2) + 1

/-- Least `e` with `n / 2 ^ e < 2 ^ 53` (for any value in binary64 range). -/
def excess (n : Nat) : Nat := excessAux 1100 n

/-- Round a nonnegative integer to the nearest binary64 value
(round-to-nearest, ties-to-even).  Values below `2 ^ 53` are exactly
representable and returned unchanged; larger values keep a 53-bit
significand, with the discarded remainder rounded to nearest and ties
broken towards an even significand. -/
def fl53 (n : Nat) : Nat :=
  if n < 2 ^ 53 then n
  else
    let e := excess n
    let q := n / 2 ^ e
    let r := n % 2 ^ e
    if 2 * r < 2 ^ e then q * 2 ^ e
    else if 2 ^ e < 2 * r then (q + 1) * 2 ^ e
    else (if q % 2 = 0 then q else q + 1) * 2 ^ e

theorem fl53_of_lt (n : Nat) (h : n < 2 ^ 53) : fl53 n = n := by
  unfold fl53
  rw [if_pos h]

/-! ## Whole-token to raw-unit conversions

`SendToken.tsx` line 107/116: `Number(amount) * Math.pow(10, actualDecimals)`
followed by `BigInt(Math.floor(transferAmount))`, where `actualDecimals` is
the decimals value just fetched from the mint. -/

/-- Raw amount computed by the current send panel from a whole-token amount
`a` and the fetched mint decimals `d`. -/
def sendRawAmount (a d : Nat) : Nat := fl53 (a * 10 ^ d)

/-- Raw amount computed by the mint panel (`MintToken.tsx`), lines 83–85:
`decimals === 0 ? Number(amount) : Number(amount) * Math.pow(10, decimals)`.
`decimals` there is the React state captured by the render closure — the
initial value 9 or whatever a previous invocation stored — NOT the decimals
value fetched from the mint during the current invocation. -/
def mintRawAmountStale (stateDecimals a : Nat) : Nat :=
  if stateDecimals = 0 then a else fl53 (a * 10 ^ stateDecimals)

/-- Raw amount minted by `CreateToken.tsx` line 93:
`1000000000 * Math.pow(10, decimals)`. -/
def createMintAmount (d : Nat) : Nat := fl53 (1000000000 * 10 ^ d)

/-- Raw amount computed by the legacy send/mint panels:
`Number(amount) * Math.pow(10, 9)` with hard-coded 9 decimals. -/
def legacyRawAmount (a : Nat) : Nat := fl53 (a * 10 ^ 9)

/-! ## JS thrown values -/

/-- A JS thrown value: either an `Error` instance (with an identity tag
modelling object identity, and a message) or a non-`Error` value rendered
as a string. -/
inductive JsVal where
  | errObj (id : Nat) (msg : String)
  | raw (s : String)
deriving DecidableEq, Repr

/-- Normalisation `error instanceof Error ? error : new Error(String(error))`
(`connection.ts` line 57).  An `Error` instance passes through unchanged; a
non-`Error` thrown value is wrapped in a fresh `Error` (identity tag 0
stands for the newly allocated object) carrying its string rendering. -/
def toErrorInstance : JsVal → JsVal
  | .errObj i m => .errObj i m
  | .raw s => .errObj 0 s

/-- The `message` property read by the catch blocks. -/
def jsMessage : JsVal → String
  | .errObj _ m => m
  | .raw s => s

/-- Whether the thrown value is an `Error` instance
(`error instanceof Error`). -/
def isErrorInstance : JsVal → Bool
  | .errObj _ _ => true
  | .raw _ => false

/-- JS `String.prototype.includes` for nonempty patterns. -/
def containsSub (s pat : String) : Bool := (s.splitOn pat).length != 1

/-! ## Retry wrapper (`connection.ts`, `withRetry`) -/

/-- Observable result of a `withRetry` run: the outcome delivered to the
caller, the number of attempts performed, and the number of sleeps taken
(one delayed retry per sleep; the delay magnitudes involve `Math.random`
jitter and are not recorded). -/
structure RetryResult (α : Type) where
  outcome : Except JsVal α
  attempts : Nat
  sleeps : Nat
deriving Repr

/-- The `for (attempt = 0; attempt <= maxRetries; attempt++)` loop of
`withRetry`.  `fuel` counts the loop iterations still allowed and equals
`maxRetries + 1 - attempt` at every call from `withRetry`; exhausted fuel is
the loop exit, which throws `lastError` or — unreachably from `withRetry`,
since the loop body always runs at least once — the fallback error.  On a
failed attempt the error is normalised by `toErrorInstance` and, exactly
when `attempt < maxRetries`, a backoff sleep is taken before retrying. -/
def withRetryGo (fn : Nat → Except JsVal α) (maxRetries : Nat) :
    Nat → Nat → Nat → Nat → Option JsVal → RetryResult α
  | 0, _, sleeps, attempts, lastError =>
      ⟨.error (lastError.getD (.errObj 0 "Operation failed after retries")),
        attempts, sleeps⟩
  | fuel + 1, attempt, sleeps, attempts, _ =>
      match fn attempt with
      | .ok v => ⟨.ok v, attempts + 1, sleeps⟩
      | .error e =>
          if attempt < maxRetries then
            withRetryGo fn maxRetries fuel (attempt + 1) (sleeps + 1)
              (attempts + 1) (some (toErrorInstance e))
          else
            withRetryGo fn maxRetries fuel (attempt + 1) sleeps
              (attempts + 1) (some (toErrorInstance e))

/-- Model of `withRetry(fn, maxRetries)` (the source defaults `maxRetries` to 3 and
`baseDelay` to 1000 ms; the delay magnitude is jittered and not modelled).
`fn i` is the outcome of the `i`-th attempt of the wrapped operation. -/
def withRetry (fn : Nat → Except JsVal α) (maxRetries : Nat) : RetryResult α :=
  withRetryGo fn maxRetries (maxRetries + 1) 0 0 0 none

/-! ## Connection cache (`connection.ts`, `getReliableConnection`) -/

/-- Configuration passed to the `Connection` constructor. -/
structure ConnConfig where
  commitment : String
  confirmTransactionInitialTimeout : Nat
  disableRetryOnRateLimit : Bool
deriving DecidableEq, Repr

/-- A client connection handle; `id` models JS object identity. -/
structure Connection where
  id : Nat
  endpoint : String
  config : ConnConfig
deriving DecidableEq, Repr

/-- The module-level `connectionCache` record, plus a counter supplying the
identity of the next freshly constructed handle. -/
structure ConnCache where
  entries : List (String × Connection)
  nextId : Nat
deriving Repr

/-- Model of `getReliableConnection(endpoint)`: return the cached handle for the
exact endpoint string when present, otherwise construct a handle with
commitment `confirmed`, a 60 s confirmation timeout and rate-limit retries
enabled, store it, and return it. -/
def getReliableConnection (endpoint : String) (cache : ConnCache) :
    Connection × ConnCache :=
  match cache.entries.lookup endpoint with
  | some conn => (conn, cache)
  | none =>
      let conn : Connection :=
        ⟨cache.nextId, endpoint, ⟨"confirmed", 60000, false⟩⟩
      (conn, ⟨(endpoint, conn) :: cache.entries, cache.nextId + 1⟩)

/-! ## Instructions and observable events -/

/-- Instructions the panels add to a transaction (arguments in source
order; amounts already in raw units). -/
inductive Instr where
  | createAssociatedAccount (payer ata owner mint : String)
  | transfer (source dest authority : String) (amount : Nat)
  | mintTo (mint dest authority : String) (amount : Nat)
  | createAccount (fromPubkey newAccountPubkey : String) (space lamports : Nat)
  | initializeMint (mint : String) (decimals : Nat)
      (mintAuthority freezeAuthority : String)
deriving DecidableEq, Repr

/-- Observable events a handler emits, in program order.  `rpcConfirm`
records the confirmation anchor the source passes: `some (blockhash,
lastValidBlockHeight)` for the object form of `confirmTransaction`, `none`
for the signature-only form.  `rpcGetMint` stands for the (possibly
retried) mint read issued through `withRetry`. -/
inductive Ev where
  | toastError (msg : String)
  | toastLoading (msg : String)
  | toastSuccess (msg : String)
  | toastInfo (msg : String)
  | toastExplorerLink (sig : String)
  | toastDismiss
  | consoleLog (msg : String)
  | rpcGetMint (mint : String)
  | rpcGetAccountInfo (addr : String)
  | rpcGetLatestBlockhash
  | rpcGetRentExemption
  | walletSubmit (tx : List Instr)
  | rpcConfirm (sig : String) (anchor : Option (String × Nat))
  | localStorageWrite (key value : String)
deriving DecidableEq, Repr

/-- Events that reach the network (RPC reads, the wallet submission, and
the confirmation poll). -/
def isNetworkEv : Ev → Bool
  | .rpcGetMint _ => true
  | .rpcGetAccountInfo _ => true
  | .rpcGetLatestBlockhash => true
  | .rpcGetRentExemption => true
  | .walletSubmit _ => true
  | .rpcConfirm _ _ => true
  | _ => false

def isSubmitEv : Ev → Bool
  | .walletSubmit _ => true
  | _ => false

def isConfirmEv : Ev → Bool
  | .rpcConfirm _ _ => true
  | _ => false

def isExplorerEv : Ev → Bool
  | .toastExplorerLink _ => true
  | _ => false

def isCreateATA : Instr → Bool
  | .createAssociatedAccount _ _ _ _ => true
  | _ => false

def isTransfer : Instr → Bool
  | .transfer _ _ _ _ => true
  | _ => false

def isMintTo : Instr → Bool
  | .mintTo _ _ _ _ => true
  | _ => false

/-- Number of network calls in a trace. -/
def networkCalls (t : List Ev) : Nat := t.countP (fun e => isNetworkEv e)

/-- Number of wallet submissions in a trace. -/
def submitCount (t : List Ev) : Nat := t.countP (fun e => isSubmitEv e)

/-- Number of confirmation calls in a trace. -/
def confirmCount (t : List Ev) : Nat := t.countP (fun e => isConfirmEv e)

/-- Number of explorer-link notifications in a trace. -/
def explorerCount (t : List Ev) : Nat := t.countP (fun e => isExplorerEv e)

/-- Claim shape for a built transaction: when the destination associated
account already exists the transaction is the primary instruction alone
(no create-associated-account instruction); when it does not exist the
transaction is exactly one create-associated-account instruction followed
by the primary instruction. -/
def txShape (accountExists : Bool) (isPrimary : Instr → Bool)
    (tx : List Instr) : Prop :=
  match accountExists with
  | true =>
      tx.countP (fun i => isCreateATA i) = 0 ∧
      ∃ p, tx = [p] ∧ isPrimary p = true
  | false => ∃ c p, tx = [c, p] ∧ isCreateATA c = true ∧ isPrimary p = true

/-- Model of `getAssociatedTokenAddress(mint, owner)`: deterministic off-chain
derivation performed by the external SPL library; modelled as an injective
pairing of mint and owner. -/
def ataAddr (mint owner : String) : String := "ata:" ++ mint ++ ":" ++ owner

/-- JS `s.slice(0, 4)`. -/
def sliceFirst4 (s : String) : String := s.take 4

/-- JS `s.slice(-4)`. -/
def sliceLast4 (s : String) : String :=
  String.mk (s.toList.drop (s.toList.length - 4))

/-! ## Current send panel (`SendToken.tsx`) -/

namespace SendT

/-- React state of the send panel captured by the render closure. -/
structure State where
  mintAddress : String
  recipientAddress : String
  amount : String
  isLoading : Bool
  decimals : Nat
deriving DecidableEq, Repr

/-- Environment of one handler invocation: the wallet identity and the
results the external collaborators return.  `amountNum` is `Number` applied
to the amount field (a whole-token integer, per the form constraints
`type=number, min=1, step=1`).  `getMintResult` is the outcome of the
retried `getMint` read (its `.ok` value the decimals of the mint);
`sendResult` the outcome of `sendTransaction`; `confirmResult` the outcome
of `confirmTransaction`.  The remaining reads are modelled as succeeding
with the recorded values. -/
structure Env where
  publicKey : Option String
  mintValid : Bool
  recipientValid : Bool
  getMintResult : Except JsVal Nat
  sourceExists : Bool
  destExists : Bool
  amountNum : Nat
  blockhash : String
  lastValidBlockHeight : Nat
  sendResult : Except JsVal String
  confirmResult : Except JsVal Unit
deriving Repr

/-- Error toast of the outer catch block (lines 143–150). -/
def catchToast (e : JsVal) : Ev :=
  if isErrorInstance e then
    .toastError ("Failed to send tokens: " ++ jsMessage e)
  else
    .toastError "Failed to send tokens. Please check the addresses and try again."

/-- The `try` block of `handleSendToken` (entered after the wallet and
empty-field guards): returns the state as updated by the `setX` calls made
on the taken path, and the events of that path.  Every path falls through
to the shared `finally` in `handleSendToken`. -/
def tryBody (env : Env) (s : State) (pk : String) : State × List Ev :=
  if env.mintValid = false then
    (s, [.toastError "Invalid mint address format"])
  else if env.recipientValid = false then
    (s, [.toastError "Invalid recipient address format"])
  else
    match env.getMintResult with
    | .error _ =>
        (s, [.rpcGetMint s.mintAddress, .consoleLog "Error getting mint info",
             .toastError "Could not verify token mint. Please check the address."])
    | .ok actualDecimals =>
        let s := { s with decimals := actualDecimals }
        let src := ataAddr s.mintAddress pk
        let dst := ataAddr s.mintAddress s.recipientAddress
        if env.sourceExists = false then
          (s, [.rpcGetMint s.mintAddress, .rpcGetAccountInfo src,
               .toastError "You do not have a token account for this token"])
        else
          let createPart : List Instr :=
            if env.destExists then []
            else [.createAssociatedAccount pk dst s.recipientAddress s.mintAddress]
          let tx := createPart ++
            [.transfer src dst pk (sendRawAmount env.amountNum actualDecimals)]
          let evs : List Ev :=
            [.rpcGetMint s.mintAddress, .rpcGetAccountInfo src,
             .rpcGetAccountInfo dst, .rpcGetLatestBlockhash,
             .toastLoading "Sending transaction...", .walletSubmit tx]
          match env.sendResult with
          | .error e =>
              (s, evs ++ [.consoleLog "Error sending tokens", catchToast e])
          | .ok sig =>
              let evs := evs ++
                [.toastLoading "Confirming transaction...",
                 .rpcConfirm sig (some (env.blockhash, env.lastValidBlockHeight))]
              match env.confirmResult with
              | .error e =>
                  (s, evs ++ [.consoleLog "Error sending tokens", catchToast e])
              | .ok _ =>
                  ({ s with amount := "", recipientAddress := "" },
                   evs ++ [.toastSuccess ("Successfully sent " ++ s.amount ++
                     " tokens to " ++ sliceFirst4 s.recipientAddress ++ "..." ++
                     sliceLast4 s.recipientAddress)])

/-- Model of `handleSendToken`: wallet guard, empty-field guard, then the `try`
block with its `finally` clearing the loading flag. -/
def handleSendToken (env : Env) (s : State) : State × List Ev :=
  match env.publicKey with
  | none => (s, [.toastError "Please connect your wallet first"])
  | some pk =>
      if s.mintAddress = "" ∨ s.recipientAddress = "" ∨ s.amount = "" then
        (s, [.toastError "Please fill in all fields"])
      else
        let s := { s with isLoading := true }
        let r := tryBody env s pk
        ({ r.1 with isLoading := false },
         .toastLoading "Preparing transaction..." :: r.2)

end SendT

/-! ## Mint panel (`MintToken.tsx`) -/

namespace MintT

/-- React state of the mint panel captured by the render closure.
`decimals` starts at 9 on mount and is the value the amount conversion at
lines 83–85 reads. -/
structure State where
  mintAddress : String
  amount : String
  isLoading : Bool
  decimals : Nat
deriving DecidableEq, Repr

structure Env where
  publicKey : Option String
  mintValid : Bool
  getMintResult : Except JsVal Nat
  accountExists : Bool
  amountNum : Nat
  blockhash : String
  lastValidBlockHeight : Nat
  sendResult : Except JsVal String
  confirmResult : Except JsVal Unit
deriving Repr

/-- Error toast of the outer catch block (lines 116–123). -/
def catchToast (e : JsVal) : Ev :=
  if isErrorInstance e then
    .toastError ("Failed to mint tokens: " ++ jsMessage e)
  else
    .toastError "Failed to mint tokens. Please check the mint address and try again."

/-- The `try` block of `handleMintToken`.  `setDecimals(mintInfo.decimals)`
updates the returned state, but the amount conversion reads the stale
render-time `s.decimals`, exactly as the JS closure does. -/
def tryBody (env : Env) (s : State) (pk : String) : State × List Ev :=
  if env.mintValid = false then
    (s, [.toastError "Invalid mint address format"])
  else
    match env.getMintResult with
    | .error _ =>
        (s, [.rpcGetMint s.mintAddress, .consoleLog "Error getting mint info",
             .toastError "Could not verify mint. Please check the address and try again."])
    | .ok fetchedDecimals =>
        let staleDecimals := s.decimals
        let s := { s with decimals := fetchedDecimals }
        let ata := ataAddr s.mintAddress pk
        let createPart : List Instr :=
          if env.accountExists then []
          else [.createAssociatedAccount pk ata pk s.mintAddress]
        let tx := createPart ++
          [.mintTo s.mintAddress ata pk (mintRawAmountStale staleDecimals env.amountNum)]
        let evs : List Ev :=
          [.rpcGetMint s.mintAddress, .rpcGetAccountInfo ata,
           .rpcGetLatestBlockhash, .toastLoading "Sending transaction...",
           .walletSubmit tx]
        match env.sendResult with
        | .error e =>
            (s, evs ++ [.consoleLog "Error minting tokens", catchToast e])
        | .ok sig =>
            let evs := evs ++
              [.toastLoading "Confirming transaction...",
               .rpcConfirm sig (some (env.blockhash, env.lastValidBlockHeight))]
            match env.confirmResult with
            | .error e =>
                (s, evs ++ [.consoleLog "Error minting tokens", catchToast e])
            | .ok _ =>
                ({ s with amount := "" },
                 evs ++ [.toastSuccess ("Successfully minted " ++ s.amount ++ " tokens")])

/-- Model of `handleMintToken`: wallet guard, empty-field guard, then the `try`
block with its `finally` clearing the loading flag. -/
def handleMintToken (env : Env) (s : State) : State × List Ev :=
  match env.publicKey with
  | none => (s, [.toastError "Please connect your wallet first"])
  | some pk =>
      if s.mintAddress = "" ∨ s.amount = "" then
        (s, [.toastError "Please fill in all fields"])
      else
        let s := { s with isLoading := true }
        let r := tryBody env s pk
        ({ r.1 with isLoading := false },
         .toastLoading "Preparing to mint tokens..." :: r.2)

end MintT

/-! ## Create panel (`CreateToken.tsx`)

The panel builds one transaction of four instructions (create mint
account, initialize mint, create associated account, mint initial supply),
anchors it with only the `blockhash` field of `getLatestBlockhash`, submits
it, and then confirms by `confirmTransaction(signature, confirmed)` —
the signature-only form, with no blockhash anchor.  `toast.info` has no
counterpart in the notification library the source imports; the calls are
modelled as plain notification events, which is the reading most
favourable to the specification (no claim in scope depends on it). -/

namespace CreateT

/-- React state; `decimals` starts at 9, `lastSignature` at `none`. -/
structure State where
  tokenName : String
  tokenSymbol : String
  decimals : Nat
  isLoading : Bool
  lastSignature : Option String
deriving DecidableEq, Repr

/-- Environment: `freshMint` is the keypair generated for the new mint; `rentLamports`
the rent-exemption quote; `confirmResult` resolves to the `value.err` field
of the confirmation response (`none` meaning success). -/
structure Env where
  publicKey : Option String
  freshMint : String
  rentLamports : Nat
  blockhash : String
  sendResult : Except JsVal String
  confirmResult : Except JsVal (Option JsVal)
deriving Repr

/-- Constant `token.MINT_SIZE` of the SPL library. -/
def MINT_SIZE : Nat := 82

/-- The catch block (lines 156–195): dismiss the loading toast, log, then
classify the error message by substring to pick the user-facing toast.  In
the timeout branch the explorer link is shown only when `lastSignature` —
the render-time state value, not the signature stored moments earlier by
`setLastSignature` — is non-null. -/
def catchEvs (staleLastSig : Option String) (e : JsVal) : List Ev :=
  [.consoleLog "Error creating token", .toastDismiss] ++
  (match e with
   | .errObj _ m =>
       if containsSub m "403" then
         [.toastError "Access forbidden. Try using a different wallet or network."]
       else if containsSub m "timeout" || containsSub m "was not confirmed" then
         [.toastError "Transaction may have succeeded but was not confirmed in time. Check your wallet for the new token or try again."] ++
         (match staleLastSig with
          | some prev => [.toastExplorerLink prev]
          | none => [])
       else if containsSub m "insufficient funds" then
         [.toastError "Not enough SOL in your wallet for this operation."]
       else [.toastError ("Failed to create token: " ++ m)]
   | .raw _ => [.toastError "Failed to create token. Please try again."])

/-- The `try` block of `handleCreateToken`; `s0` is the render-time state
the closure captured (read by the catch block). -/
def tryBody (env : Env) (s0 : State) (pk : String) : State × List Ev :=
  let s := s0
  let mint := env.freshMint
  let ata := ataAddr mint pk
  let tx : List Instr :=
    [.createAccount pk mint MINT_SIZE env.rentLamports,
     .initializeMint mint s.decimals pk pk,
     .createAssociatedAccount pk ata pk mint,
     .mintTo mint ata pk (createMintAmount s.decimals)]
  let evs : List Ev :=
    [.consoleLog "Creating token with mint address",
     .rpcGetRentExemption, .rpcGetLatestBlockhash, .walletSubmit tx]
  match env.sendResult with
  | .error e => (s, evs ++ catchEvs s0.lastSignature e)
  | .ok sig =>
      let s := { s with lastSignature := some sig }
      let evs := evs ++
        [.consoleLog "Transaction sent with signature",
         .toastLoading "Creating token... This may take a minute",
         .rpcConfirm sig none]
      match env.confirmResult with
      | .error e => (s, evs ++ catchEvs s0.lastSignature e)
      | .ok (some _) =>
          (s, evs ++ catchEvs s0.lastSignature
            (.errObj 0 "Transaction confirmed but failed"))
      | .ok none =>
          ({ s with tokenName := "", tokenSymbol := "", decimals := 9 },
           evs ++
            [.toastDismiss,
             .localStorageWrite "lastCreatedToken" mint,
             .localStorageWrite "lastTokenAccount" ata,
             .toastSuccess "Token created successfully!",
             .toastInfo "To see your token in Phantom"])

/-- Model of `handleCreateToken`: wallet guard, empty-field guard, then the `try`
block with its `finally` clearing the loading flag. -/
def handleCreateToken (env : Env) (s : State) : State × List Ev :=
  match env.publicKey with
  | none => (s, [.toastError "Please connect your wallet first"])
  | some pk =>
      if s.tokenName = "" ∨ s.tokenSymbol = "" then
        (s, [.toastError "Please fill in all fields"])
      else
        let s := { s with isLoading := true }
        let r := tryBody env s pk
        ({ r.1 with isLoading := false }, r.2)

/-- Model of `handleDecimalsChange` (lines 202–215): empty input resets to 0; an
input parsing (JS `parseInt`) to an integer in `[0, 9]` is accepted;
anything else leaves the state unchanged. -/
def handleDecimalsChange (current : Nat) (parsed : Option Int) : Nat :=
  match parsed with
  | none => current
  | some p => if 0 ≤ p ∧ p ≤ 9 then p.toNat else current

/-- The full change handler including the empty-input branch; `value` the
raw field text, `parsed` the JS `parseInt` of it (`none` for `NaN`). -/
def decimalsChange (current : Nat) (value : String) (parsed : Option Int) : Nat :=
  if value = "" then 0 else handleDecimalsChange current parsed

end CreateT

/-! ## Legacy send panel (`src/unnamed/part_000`)

An earlier revision of the send panel: no retry helper, no mint-decimals
lookup (the conversion hard-codes `Math.pow(10, 9)`), address parsing
inside the `try` so a malformed address reaches the generic catch, and
confirmation by `confirmTransaction(signature, confirmed)` with no
blockhash anchor. -/

namespace SendL

structure State where
  mintAddress : String
  recipientAddress : String
  amount : String
  isLoading : Bool
deriving DecidableEq, Repr

structure Env where
  publicKey : Option String
  mintValid : Bool
  recipientValid : Bool
  destExists : Bool
  amountNum : Nat
  sendResult : Except JsVal String
  confirmResult : Except JsVal Unit
deriving Repr

/-- Generic catch block of the legacy send panel. -/
def catchEvs : List Ev :=
  [.consoleLog "Error sending tokens",
   .toastError "Failed to send tokens. Please check the addresses and try again."]

def tryBody (env : Env) (s : State) (pk : String) : State × List Ev :=
  if env.mintValid = false ∨ env.recipientValid = false then
    (s, catchEvs)
  else
    let src := ataAddr s.mintAddress pk
    let dst := ataAddr s.mintAddress s.recipientAddress
    let createPart : List Instr :=
      if env.destExists then []
      else [.createAssociatedAccount pk dst s.recipientAddress s.mintAddress]
    let tx := createPart ++
      [.transfer src dst pk (legacyRawAmount env.amountNum)]
    let evs : List Ev := [.rpcGetAccountInfo dst, .walletSubmit tx]
    match env.sendResult with
    | .error _ => (s, evs ++ catchEvs)
    | .ok sig =>
        let evs := evs ++ [.rpcConfirm sig none]
        match env.confirmResult with
        | .error _ => (s, evs ++ catchEvs)
        | .ok _ =>
            ({ s with amount := "", recipientAddress := "" },
             evs ++ [.toastSuccess ("Successfully sent " ++ s.amount ++
               " tokens to " ++ sliceFirst4 s.recipientAddress ++ "..." ++
               sliceLast4 s.recipientAddress)])

def handleSendToken (env : Env) (s : State) : State × List Ev :=
  match env.publicKey with
  | none => (s, [.toastError "Please connect your wallet first"])
  | some pk =>
      if s.mintAddress = "" ∨ s.recipientAddress = "" ∨ s.amount = "" then
        (s, [.toastError "Please fill in all fields"])
      else
        let s := { s with isLoading := true }
        let r := tryBody env s pk
        ({ r.1 with isLoading := false }, r.2)

end SendL

/-! ## Legacy mint panel (`src/unnamed/part_001`) -/

namespace MintL

structure State where
  mintAddress : String
  amount : String
  isLoading : Bool
deriving DecidableEq, Repr

structure Env where
  publicKey : Option String
  mintValid : Bool
  accountExists : Bool
  amountNum : Nat
  sendResult : Except JsVal String
  confirmResult : Except JsVal Unit
deriving Repr

/-- Generic catch block of the legacy mint panel. -/
def catchEvs : List Ev :=
  [.consoleLog "Error minting tokens",
   .toastError "Failed to mint tokens. Please check the mint address and try again."]

def tryBody (env : Env) (s : State) (pk : String) : State × List Ev :=
  if env.mintValid = false then
    (s, catchEvs)
  else
    let ata := ataAddr s.mintAddress pk
    let createPart : List Instr :=
      if env.accountExists then []
      else [.createAssociatedAccount pk ata pk s.mintAddress]
    let tx := createPart ++
      [.mintTo s.mintAddress ata pk (legacyRawAmount env.amountNum)]
    let evs : List Ev := [.rpcGetAccountInfo ata, .walletSubmit tx]
    match env.sendResult with
    | .error _ => (s, evs ++ catchEvs)
    | .ok sig =>
        let evs := evs ++ [.rpcConfirm sig none]
        match env.confirmResult with
        | .error _ => (s, evs ++ catchEvs)
        | .ok _ =>
            ({ s with amount := "" },
             evs ++ [.toastSuccess ("Successfully minted " ++ s.amount ++ " tokens")])

def handleMintToken (env : Env) (s : State) : State × List Ev :=
  match env.publicKey with
  | none => (s, [.toastError "Please connect your wallet first"])
  | some pk =>
      if s.mintAddress = "" ∨ s.amount = "" then
        (s, [.toastError "Please fill in all fields"])
      else
        let s := { s with isLoading := true }
        let r := tryBody env s pk
        ({ r.1 with isLoading := false }, r.2)

end MintL

/-! ## Decidability helpers -/

instance {ε α : Type} [DecidableEq ε] [DecidableEq α] :
    DecidableEq (Except ε α) := fun a b =>
  match a, b with
  | .error e₁, .error e₂ => decidable_of_iff (e₁ = e₂) (by simp)
  | .error _, .ok _ => isFalse (by simp)
  | .ok _, .error _ => isFalse (by simp)
  | .ok a₁, .ok a₂ => decidable_of_iff (a₁ = a₂) (by simp)

/-! ## Retry wrapper lemmas -/

/-- Loop invariant for the success case: starting at `attempt ≤ k` with
`fuel` iterations left, failures up to attempt `k - 1` and a success at
attempt `k ≤ maxRetries` yield the success value after `k - attempt`
further sleeps and `k - attempt + 1` further attempts. -/
theorem withRetryGo_succ_spec (fn : Nat → Except JsVal α) (maxRetries k : Nat)
    (v : α) (hk : k ≤ maxRetries)
    (hfail : ∀ i, i < k → ∃ e, fn i = .error e)
    (hsucc : fn k = .ok v) :
    ∀ fuel attempt sleeps attempts le, attempt ≤ k →
      attempt + fuel = maxRetries + 1 →
      withRetryGo fn maxRetries fuel attempt sleeps attempts le =
        ⟨.ok v, attempts + (k - attempt) + 1, sleeps + (k - attempt)⟩ := by
  intro fuel
  induction fuel with
  | zero =>
      intro attempt sleeps attempts le hak hsum
      omega
  | succ f ih =>
      intro attempt sleeps attempts le hak hsum
      rcases Nat.eq_or_lt_of_le hak with heq | hlt
      · subst heq
        simp [withRetryGo, hsucc]
      · obtain ⟨e, he⟩ := hfail attempt hlt
        have hmr : attempt < maxRetries := Nat.lt_of_lt_of_le hlt hk
        have := ih (attempt + 1) (sleeps + 1) (attempts + 1)
          (some (toErrorInstance e)) hlt (by omega)
        simp only [withRetryGo, he, if_pos hmr, this, RetryResult.mk.injEq,
          true_and]
        omega

/-- Loop invariant for the exhaustion case: with every attempt from
`attempt` on failing (`e` the error of the final attempt `maxRetries`),
the loop performs its remaining `fuel` attempts, sleeps after each failure
except the last, and raises the final error normalised by
`toErrorInstance`. -/
theorem withRetryGo_fail_spec (fn : Nat → Except JsVal α) (maxRetries : Nat)
    (e : JsVal)
    (hfail : ∀ i, i < maxRetries → ∃ ei, fn i = .error ei)
    (hlast : fn maxRetries = .error e) :
    ∀ fuel attempt sleeps attempts le, attempt ≤ maxRetries →
      attempt + fuel = maxRetries + 1 →
      withRetryGo fn maxRetries fuel attempt sleeps attempts le =
        ⟨.error (toErrorInstance e), attempts + fuel, sleeps + (fuel - 1)⟩ := by
  intro fuel
  induction fuel with
  | zero =>
      intro attempt sleeps attempts le hak hsum
      omega
  | succ f ih =>
      intro attempt sleeps attempts le hak hsum
      rcases Nat.eq_or_lt_of_le hak with heq | hlt
      · subst heq
        have hf : f = 0 := by omega
        subst hf
        simp [withRetryGo, hlast]
      · obtain ⟨ei, hei⟩ := hfail attempt hlt
        have := ih (attempt + 1) (sleeps + 1) (attempts + 1)
          (some (toErrorInstance ei)) hlt (by omega)
        have hf : 1 ≤ f := by omega
        simp only [withRetryGo, hei, if_pos hlt, this, RetryResult.mk.injEq,
          true_and]
        omega

/-- C2: for every wrapped operation and every `k ≤ maxRetries`, if the
operation fails exactly `k` times and then succeeds, `withRetry` returns
the success value, having made `k + 1` attempts and exactly `k` delayed
retries (one sleep per failed attempt, never after the success). -/
theorem withRetry_k_failures_then_success (fn : Nat → Except JsVal α)
    (maxRetries k : Nat) (v : α) (hk : k ≤ maxRetries)
    (hfail : ∀ i, i < k → ∃ e, fn i = .error e)
    (hsucc : fn k = .ok v) :
    withRetry fn maxRetries = ⟨.ok v, k + 1, k⟩ := by
  have h := withRetryGo_succ_spec fn maxRetries k v hk hfail hsucc
    (maxRetries + 1) 0 0 0 none (Nat.zero_le k) (by omega)
  simpa [withRetry] using h

/-- Witness for C2: an operation failing twice then succeeding under
`maxRetries = 3` returns the success value after 3 attempts and 2 sleeps. -/
theorem withRetry_k_failures_then_success_witness :
    2 ≤ 3 ∧
    withRetry (fun i => if i < 2 then Except.error (JsVal.errObj i "boom")
      else Except.ok (42 : Nat)) 3 = ⟨.ok 42, 3, 2⟩ :=
  ⟨by decide,
   withRetry_k_failures_then_success _ 3 2 42 (by decide)
     (fun i hi => ⟨JsVal.errObj i "boom", by rw [if_pos hi]⟩) (by decide)⟩

/-- C3 counterexample: the claim says the error of the last attempt is
re-raised to the caller unchanged, but `withRetry` normalises every caught
value with `error instanceof Error ? error : new Error(String(error))`
(line 57), so a non-`Error` thrown value comes back wrapped in a fresh
`Error`, not unchanged. -/
theorem withRetry_nonError_not_reraised_unchanged :
    (withRetry (fun _ => (Except.error (JsVal.raw "boom") :
      Except JsVal Nat)) 0).outcome ≠ Except.error (JsVal.raw "boom") := by
  decide

/-- C3 (amended): when every attempt fails, `withRetry` performs exactly
`maxRetries + 1` attempts with a sleep after each failure but the last,
and raises the error of the last attempt normalised to an `Error`
instance — the thrown value itself when it already was an `Error`
instance, otherwise a fresh `Error` wrapping its string rendering. -/
theorem withRetry_exhaustion_raises_last (fn : Nat → Except JsVal α)
    (maxRetries : Nat) (e : JsVal)
    (hfail : ∀ i, i < maxRetries → ∃ ei, fn i = .error ei)
    (hlast : fn maxRetries = .error e) :
    withRetry fn maxRetries =
      ⟨.error (toErrorInstance e), maxRetries + 1, maxRetries⟩ := by
  have h := withRetryGo_fail_spec fn maxRetries e hfail hlast
    (maxRetries + 1) 0 0 0 none (Nat.zero_le _) (by omega)
  simpa [withRetry] using h

/-- Witness for the amended C3: an operation failing on all four attempts
under `maxRetries = 3` yields the last error after 4 attempts and 3
sleeps. -/
theorem withRetry_exhaustion_raises_last_witness :
    withRetry (fun i => (Except.error (JsVal.errObj i "fail") :
      Except JsVal Nat)) 3 = ⟨.error (JsVal.errObj 3 "fail"), 4, 3⟩ :=
  withRetry_exhaustion_raises_last _ 3 (JsVal.errObj 3 "fail")
    (fun i _ => ⟨JsVal.errObj i "fail", rfl⟩) rfl

/-- C4: calling `getReliableConnection` twice with the same endpoint
string returns the same handle instance and leaves the cache unchanged
on the second call; on a cache miss the first call constructs a handle
with commitment `confirmed`, a 60 s confirmation timeout and rate-limit
retries enabled (`disableRetryOnRateLimit: false`), and stores it in the
cache before returning it. -/
theorem getReliableConnection_memoizes (e : String) (c : ConnCache) :
    getReliableConnection e (getReliableConnection e c).2 =
      ((getReliableConnection e c).1, (getReliableConnection e c).2) ∧
    (c.entries.lookup e = none →
      (getReliableConnection e c).1.config = ⟨"confirmed", 60000, false⟩ ∧
      ((getReliableConnection e c).2).entries.lookup e =
        some (getReliableConnection e c).1) := by
  cases h : c.entries.lookup e with
  | some conn => simp [getReliableConnection, h]
  | none =>
      refine ⟨?_, fun _ => ⟨?_, ?_⟩⟩ <;>
        simp [getReliableConnection, h, List.lookup]

/-- Witness for C4: a fresh cache and one endpoint string. -/
theorem getReliableConnection_memoizes_witness :
    getReliableConnection "https://api.devnet.solana.com"
        (getReliableConnection "https://api.devnet.solana.com" ⟨[], 0⟩).2 =
      ((getReliableConnection "https://api.devnet.solana.com" ⟨[], 0⟩).1,
       (getReliableConnection "https://api.devnet.solana.com" ⟨[], 0⟩).2) ∧
    (getReliableConnection "https://api.devnet.solana.com" ⟨[], 0⟩).1.config =
      ⟨"confirmed", 60000, false⟩ :=
  ⟨(getReliableConnection_memoizes "https://api.devnet.solana.com" ⟨[], 0⟩).1,
   ((getReliableConnection_memoizes "https://api.devnet.solana.com" ⟨[], 0⟩).2
      rfl).1⟩

/-- C1 (evaluating the code at the failing input): on a freshly mounted
mint panel (React state `decimals` still at its initial value 9) minting
amount "1000" against a mint whose fetched decimals are 0, the mint-to
instruction the panel submits carries the raw amount 1000000000000 — the
conversion at `MintToken.tsx` lines 83–85 reads the stale state `decimals`
instead of the decimals fetched from the mint — whereas the claim (and the
send panel, whose conversion uses the fetched value) gives exactly 1000. -/
theorem mint_panel_uses_stale_decimals :
    Ev.walletSubmit [Instr.mintTo "Mint1" (ataAddr "Mint1" "alice") "alice"
        1000000000000] ∈
      (MintT.handleMintToken
        ⟨some "alice", true, Except.ok 0, true, 1000, "bh", 100,
         Except.ok "sig1", Except.ok ()⟩
        ⟨"Mint1", "1000", false, 9⟩).2 ∧
    mintRawAmountStale 9 1000 = 1000000000000 ∧
    sendRawAmount 1000 0 = 1000 ∧
    (1000000000000 : Nat) ≠ 1000 := by
  decide

/-! ## Helper lemmas on the catch-block traces -/

theorem CreateT.catchEvs_all_not_network (stale : Option String) (e : JsVal) :
    (CreateT.catchEvs stale e).all (fun ev => !isNetworkEv ev) = true := by
  rcases e with ⟨i, m⟩ | s <;> rcases stale with _ | prev <;>
    simp only [CreateT.catchEvs] <;>
    first
    | (split_ifs <;> rfl)
    | rfl

theorem CreateT.mem_catchEvs_not_network (stale : Option String) (e : JsVal)
    (ev : Ev) (h : ev ∈ CreateT.catchEvs stale e) : isNetworkEv ev = false := by
  have hall := CreateT.catchEvs_all_not_network stale e
  rw [List.all_eq_true] at hall
  simpa using hall ev h

theorem SendT.catchToast_eq_toastError_sendT (e : JsVal) :
    ∃ m, SendT.catchToast e = Ev.toastError m := by
  unfold SendT.catchToast
  split <;> exact ⟨_, rfl⟩

theorem MintT.catchToast_eq_toastError_mintT (e : JsVal) :
    ∃ m, MintT.catchToast e = Ev.toastError m := by
  unfold MintT.catchToast
  split <;> exact ⟨_, rfl⟩

/-- The products `10 ^ 9 * 10 ^ d` for `d ≤ 9` are exactly representable
binary64 values (their significands divide out), so the JS multiplication
in the create panel is exact. -/
theorem createMintAmount_exact : ∀ d, d ≤ 9 →
    createMintAmount d = 1000000000 * 10 ^ d := by
  decide

theorem SendT.isSubmitEv_catchToast_sendT (e : JsVal) :
    isSubmitEv (SendT.catchToast e) = false := by
  unfold SendT.catchToast
  split <;> rfl

theorem MintT.isSubmitEv_catchToast_mintT (e : JsVal) :
    isSubmitEv (MintT.catchToast e) = false := by
  unfold MintT.catchToast
  split <;> rfl

theorem SendT.isExplorerEv_catchToast_sendT (e : JsVal) :
    isExplorerEv (SendT.catchToast e) = false := by
  unfold SendT.catchToast
  split <;> rfl

theorem MintT.isExplorerEv_catchToast_mintT (e : JsVal) :
    isExplorerEv (MintT.catchToast e) = false := by
  unfold MintT.catchToast
  split <;> rfl

theorem SendT.walletSubmit_ne_catchToast_sendT (tx : List Instr) (e : JsVal) :
    (Ev.walletSubmit tx = SendT.catchToast e) = False := by
  obtain ⟨m, hm⟩ := SendT.catchToast_eq_toastError_sendT e
  rw [hm]
  simp

theorem SendT.rpcConfirm_ne_catchToast_sendT (sig : String)
    (a : Option (String × Nat)) (e : JsVal) :
    (Ev.rpcConfirm sig a = SendT.catchToast e) = False := by
  obtain ⟨m, hm⟩ := SendT.catchToast_eq_toastError_sendT e
  rw [hm]
  simp

theorem MintT.walletSubmit_ne_catchToast_mintT (tx : List Instr) (e : JsVal) :
    (Ev.walletSubmit tx = MintT.catchToast e) = False := by
  obtain ⟨m, hm⟩ := MintT.catchToast_eq_toastError_mintT e
  rw [hm]
  simp

theorem MintT.rpcConfirm_ne_catchToast_mintT (sig : String)
    (a : Option (String × Nat)) (e : JsVal) :
    (Ev.rpcConfirm sig a = MintT.catchToast e) = False := by
  obtain ⟨m, hm⟩ := MintT.catchToast_eq_toastError_mintT e
  rw [hm]
  simp

/-- The transaction inside any wallet submission of the send panel `try`
block: built from the fetched mint decimals and the destination probe. -/
theorem SendT.tryBody_submit_char_sendT (env : SendT.Env) (s : SendT.State)
    (pk : String) (tx : List Instr)
    (h : Ev.walletSubmit tx ∈ (SendT.tryBody env s pk).2) :
    ∃ d, env.getMintResult = .ok d ∧
      tx = (if env.destExists then ([] : List Instr) else
        [Instr.createAssociatedAccount pk
          (ataAddr s.mintAddress s.recipientAddress) s.recipientAddress
          s.mintAddress]) ++
        [Instr.transfer (ataAddr s.mintAddress pk)
          (ataAddr s.mintAddress s.recipientAddress) pk
          (sendRawAmount env.amountNum d)] := by
  obtain ⟨pk0, mv, rv, gm, se, de, an, bh, hgt, sr, cr⟩ := env
  rcases mv
  · simp [SendT.tryBody] at h
  · rcases rv
    · simp [SendT.tryBody] at h
    · rcases gm with e | d
      · simp [SendT.tryBody] at h
      · rcases se
        · simp [SendT.tryBody] at h
        · refine ⟨d, rfl, ?_⟩
          rcases sr with es | sig
          · simp [SendT.tryBody, SendT.walletSubmit_ne_catchToast_sendT] at h
            exact h
          · rcases cr with ec | u
            · simp [SendT.tryBody, SendT.walletSubmit_ne_catchToast_sendT] at h
              exact h
            · simp [SendT.tryBody] at h
              exact h

/-- Lift of `SendT.tryBody_submit_char_sendT` to the full handler. -/
theorem SendT.submit_char_sendT (env : SendT.Env) (s : SendT.State)
    (tx : List Instr)
    (h : Ev.walletSubmit tx ∈ (SendT.handleSendToken env s).2) :
    ∃ pk d, env.publicKey = some pk ∧ env.getMintResult = .ok d ∧
      tx = (if env.destExists then ([] : List Instr) else
        [Instr.createAssociatedAccount pk
          (ataAddr s.mintAddress s.recipientAddress) s.recipientAddress
          s.mintAddress]) ++
        [Instr.transfer (ataAddr s.mintAddress pk)
          (ataAddr s.mintAddress s.recipientAddress) pk
          (sendRawAmount env.amountNum d)] := by
  cases hpk : env.publicKey with
  | none => simp [SendT.handleSendToken, hpk] at h
  | some pk =>
      simp only [SendT.handleSendToken, hpk] at h
      split at h
      · simp at h
      · simp only [List.mem_cons] at h
        rcases h with h | h
        · simp at h
        · obtain ⟨d, hd, htx⟩ := SendT.tryBody_submit_char_sendT env _ pk tx h
          exact ⟨pk, d, rfl, hd, by simpa using htx⟩

/-- Every confirmation call the send panel makes carries the blockhash and
expiry height fetched just before submission. -/
theorem SendT.tryBody_confirm_char_sendT (env : SendT.Env) (s : SendT.State)
    (pk sig : String) (a : Option (String × Nat))
    (h : Ev.rpcConfirm sig a ∈ (SendT.tryBody env s pk).2) :
    a = some (env.blockhash, env.lastValidBlockHeight) := by
  obtain ⟨pk0, mv, rv, gm, se, de, an, bh, hgt, sr, cr⟩ := env
  rcases mv
  · simp [SendT.tryBody] at h
  · rcases rv
    · simp [SendT.tryBody] at h
    · rcases gm with e | d
      · simp [SendT.tryBody] at h
      · rcases se
        · simp [SendT.tryBody] at h
        · rcases sr with es | sig₀
          · simp [SendT.tryBody, SendT.rpcConfirm_ne_catchToast_sendT] at h
          · rcases cr with ec | u
            · simp [SendT.tryBody, SendT.rpcConfirm_ne_catchToast_sendT] at h
              exact h.2
            · simp [SendT.tryBody] at h
              exact h.2

theorem SendT.confirm_char_sendT (env : SendT.Env) (s : SendT.State)
    (sig : String) (a : Option (String × Nat))
    (h : Ev.rpcConfirm sig a ∈ (SendT.handleSendToken env s).2) :
    a = some (env.blockhash, env.lastValidBlockHeight) := by
  cases hpk : env.publicKey with
  | none => simp [SendT.handleSendToken, hpk] at h
  | some pk =>
      simp only [SendT.handleSendToken, hpk] at h
      split at h
      · simp at h
      · simp only [List.mem_cons] at h
        rcases h with h | h
        · simp at h
        · exact SendT.tryBody_confirm_char_sendT env _ pk sig a h

theorem SendT.tryBody_counts_sendT (env : SendT.Env) (s : SendT.State)
    (pk : String) :
    submitCount (SendT.tryBody env s pk).2 ≤ 1 ∧
    explorerCount (SendT.tryBody env s pk).2 = 0 ∧
    (∀ sig a, Ev.rpcConfirm sig a ∈ (SendT.tryBody env s pk).2 →
      submitCount (SendT.tryBody env s pk).2 = 1) := by
  obtain ⟨pk0, mv, rv, gm, se, de, an, bh, hgt, sr, cr⟩ := env
  rcases mv <;> rcases rv <;> rcases gm with e | d <;> rcases se <;>
    rcases sr with es | sig₀ <;> rcases cr with ec | u <;>
    simp [SendT.tryBody, submitCount, explorerCount, isSubmitEv, isExplorerEv,
      SendT.isSubmitEv_catchToast_sendT, SendT.isExplorerEv_catchToast_sendT,
      SendT.rpcConfirm_ne_catchToast_sendT, List.countP_cons, List.countP_append] <;>
    try first
      | exact ⟨SendT.isSubmitEv_catchToast_sendT _, SendT.isExplorerEv_catchToast_sendT _,
          SendT.isSubmitEv_catchToast_sendT _⟩
      | exact ⟨SendT.isSubmitEv_catchToast_sendT _, SendT.isExplorerEv_catchToast_sendT _⟩

theorem SendT.handle_counts_sendT (env : SendT.Env) (s : SendT.State) :
    submitCount (SendT.handleSendToken env s).2 ≤ 1 ∧
    explorerCount (SendT.handleSendToken env s).2 = 0 ∧
    (∀ sig a, Ev.rpcConfirm sig a ∈ (SendT.handleSendToken env s).2 →
      submitCount (SendT.handleSendToken env s).2 = 1) := by
  cases hpk : env.publicKey with
  | none =>
      simp [SendT.handleSendToken, hpk, submitCount, explorerCount,
        isSubmitEv, isExplorerEv, List.countP_cons, List.countP_nil]
  | some pk =>
      obtain ⟨h1, h2, h3⟩ :=
        SendT.tryBody_counts_sendT env { s with isLoading := true } pk
      simp only [SendT.handleSendToken, hpk]
      split
      · simp [submitCount, explorerCount, isSubmitEv, isExplorerEv,
          List.countP_cons, List.countP_nil]
      · refine ⟨?_, ?_, ?_⟩
        · simpa [submitCount, List.countP_cons, isSubmitEv] using h1
        · simpa [explorerCount, List.countP_cons, isExplorerEv] using h2
        · intro sig a hmem
          simp only [List.mem_cons] at hmem
          rcases hmem with hmem | hmem
          · simp at hmem
          · have := h3 sig a hmem
            simpa [submitCount, List.countP_cons, isSubmitEv] using this

theorem SendT.loading_resets_sendT (env : SendT.Env) (s : SendT.State)
    (h : s.isLoading = false) :
    ((SendT.handleSendToken env s).1).isLoading = false := by
  cases hpk : env.publicKey with
  | none => simp [SendT.handleSendToken, hpk, h]
  | some pk =>
      simp only [SendT.handleSendToken, hpk]
      split
      · exact h
      · rfl

theorem SendT.disconnected_sendT (env : SendT.Env) (s : SendT.State)
    (h : env.publicKey = none) :
    SendT.handleSendToken env s =
      (s, [Ev.toastError "Please connect your wallet first"]) := by
  simp [SendT.handleSendToken, h]

theorem MintT.tryBody_submit_char_mintT (env : MintT.Env) (s : MintT.State)
    (pk : String) (tx : List Instr)
    (h : Ev.walletSubmit tx ∈ (MintT.tryBody env s pk).2) :
    ∃ d, env.getMintResult = .ok d ∧
      tx = (if env.accountExists then ([] : List Instr) else
        [Instr.createAssociatedAccount pk (ataAddr s.mintAddress pk) pk
          s.mintAddress]) ++
        [Instr.mintTo s.mintAddress (ataAddr s.mintAddress pk) pk
          (mintRawAmountStale s.decimals env.amountNum)] := by
  obtain ⟨pk0, mv, gm, ae, an, bh, hgt, sr, cr⟩ := env
  rcases mv
  · simp [MintT.tryBody] at h
  · rcases gm with e | d
    · simp [MintT.tryBody] at h
    · refine ⟨d, rfl, ?_⟩
      rcases sr with es | sig₀
      · simp [MintT.tryBody, MintT.walletSubmit_ne_catchToast_mintT] at h
        exact h
      · rcases cr with ec | u
        · simp [MintT.tryBody, MintT.walletSubmit_ne_catchToast_mintT] at h
          exact h
        · simp [MintT.tryBody] at h
          exact h

theorem MintT.submit_char_mintT (env : MintT.Env) (s : MintT.State)
    (tx : List Instr)
    (h : Ev.walletSubmit tx ∈ (MintT.handleMintToken env s).2) :
    ∃ pk d, env.publicKey = some pk ∧ env.getMintResult = .ok d ∧
      tx = (if env.accountExists then ([] : List Instr) else
        [Instr.createAssociatedAccount pk (ataAddr s.mintAddress pk) pk
          s.mintAddress]) ++
        [Instr.mintTo s.mintAddress (ataAddr s.mintAddress pk) pk
          (mintRawAmountStale s.decimals env.amountNum)] := by
  cases hpk : env.publicKey with
  | none => simp [MintT.handleMintToken, hpk] at h
  | some pk =>
      simp only [MintT.handleMintToken, hpk] at h
      split at h
      · simp at h
      · simp only [List.mem_cons] at h
        rcases h with h | h
        · simp at h
        · obtain ⟨d, hd, htx⟩ := MintT.tryBody_submit_char_mintT env _ pk tx h
          exact ⟨pk, d, rfl, hd, by simpa using htx⟩

theorem MintT.tryBody_confirm_char_mintT (env : MintT.Env) (s : MintT.State)
    (pk sig : String) (a : Option (String × Nat))
    (h : Ev.rpcConfirm sig a ∈ (MintT.tryBody env s pk).2) :
    a = some (env.blockhash, env.lastValidBlockHeight) := by
  obtain ⟨pk0, mv, gm, ae, an, bh, hgt, sr, cr⟩ := env
  rcases mv
  · simp [MintT.tryBody] at h
  · rcases gm with e | d
    · simp [MintT.tryBody] at h
    · rcases sr with es | sig₀
      · simp [MintT.tryBody, MintT.rpcConfirm_ne_catchToast_mintT] at h
      · rcases cr with ec | u
        · simp [MintT.tryBody, MintT.rpcConfirm_ne_catchToast_mintT] at h
          exact h.2
        · simp [MintT.tryBody] at h
          exact h.2

theorem MintT.confirm_char_mintT (env : MintT.Env) (s : MintT.State)
    (sig : String) (a : Option (String × Nat))
    (h : Ev.rpcConfirm sig a ∈ (MintT.handleMintToken env s).2) :
    a = some (env.blockhash, env.lastValidBlockHeight) := by
  cases hpk : env.publicKey with
  | none => simp [MintT.handleMintToken, hpk] at h
  | some pk =>
      simp only [MintT.handleMintToken, hpk] at h
      split at h
      · simp at h
      · simp only [List.mem_cons] at h
        rcases h with h | h
        · simp at h
        · exact MintT.tryBody_confirm_char_mintT env _ pk sig a h

theorem MintT.tryBody_counts_mintT (env : MintT.Env) (s : MintT.State)
    (pk : String) :
    submitCount (MintT.tryBody env s pk).2 ≤ 1 ∧
    explorerCount (MintT.tryBody env s pk).2 = 0 ∧
    (∀ sig a, Ev.rpcConfirm sig a ∈ (MintT.tryBody env s pk).2 →
      submitCount (MintT.tryBody env s pk).2 = 1) := by
  obtain ⟨pk0, mv, gm, ae, an, bh, hgt, sr, cr⟩ := env
  rcases mv <;> rcases gm with e | d <;>
    rcases sr with es | sig₀ <;> rcases cr with ec | u <;>
    simp [MintT.tryBody, submitCount, explorerCount, isSubmitEv, isExplorerEv,
      MintT.isSubmitEv_catchToast_mintT, MintT.isExplorerEv_catchToast_mintT,
      MintT.rpcConfirm_ne_catchToast_mintT, List.countP_cons, List.countP_append] <;>
    try first
      | exact ⟨MintT.isSubmitEv_catchToast_mintT _, MintT.isExplorerEv_catchToast_mintT _,
          MintT.isSubmitEv_catchToast_mintT _⟩
      | exact ⟨MintT.isSubmitEv_catchToast_mintT _, MintT.isExplorerEv_catchToast_mintT _⟩

theorem MintT.handle_counts_mintT (env : MintT.Env) (s : MintT.State) :
    submitCount (MintT.handleMintToken env s).2 ≤ 1 ∧
    explorerCount (MintT.handleMintToken env s).2 = 0 ∧
    (∀ sig a, Ev.rpcConfirm sig a ∈ (MintT.handleMintToken env s).2 →
      submitCount (MintT.handleMintToken env s).2 = 1) := by
  cases hpk : env.publicKey with
  | none =>
      simp [MintT.handleMintToken, hpk, submitCount, explorerCount,
        isSubmitEv, isExplorerEv, List.countP_cons, List.countP_nil]
  | some pk =>
      obtain ⟨h1, h2, h3⟩ :=
        MintT.tryBody_counts_mintT env { s with isLoading := true } pk
      simp only [MintT.handleMintToken, hpk]
      split
      · simp [submitCount, explorerCount, isSubmitEv, isExplorerEv,
          List.countP_cons, List.countP_nil]
      · refine ⟨?_, ?_, ?_⟩
        · simpa [submitCount, List.countP_cons, isSubmitEv] using h1
        · simpa [explorerCount, List.countP_cons, isExplorerEv] using h2
        · intro sig a hmem
          simp only [List.mem_cons] at hmem
          rcases hmem with hmem | hmem
          · simp at hmem
          · have := h3 sig a hmem
            simpa [submitCount, List.countP_cons, isSubmitEv] using this

theorem MintT.loading_resets_mintT (env : MintT.Env) (s : MintT.State)
    (h : s.isLoading = false) :
    ((MintT.handleMintToken env s).1).isLoading = false := by
  cases hpk : env.publicKey with
  | none => simp [MintT.handleMintToken, hpk, h]
  | some pk =>
      simp only [MintT.handleMintToken, hpk]
      split
      · exact h
      · rfl

theorem MintT.disconnected_mintT (env : MintT.Env) (s : MintT.State)
    (h : env.publicKey = none) :
    MintT.handleMintToken env s =
      (s, [Ev.toastError "Please connect your wallet first"]) := by
  simp [MintT.handleMintToken, h]

theorem CreateT.walletSubmit_not_mem_catchEvs (stale : Option String)
    (e : JsVal) (tx : List Instr) :
    Ev.walletSubmit tx ∉ CreateT.catchEvs stale e := fun h => by
  simpa [isNetworkEv] using CreateT.mem_catchEvs_not_network stale e _ h

theorem CreateT.rpcConfirm_not_mem_catchEvs (stale : Option String)
    (e : JsVal) (sig : String) (a : Option (String × Nat)) :
    Ev.rpcConfirm sig a ∉ CreateT.catchEvs stale e := fun h => by
  simpa [isNetworkEv] using CreateT.mem_catchEvs_not_network stale e _ h

theorem CreateT.catchEvs_submitCount (stale : Option String) (e : JsVal) :
    (CreateT.catchEvs stale e).countP (fun ev => isSubmitEv ev) = 0 := by
  rw [List.countP_eq_zero]
  intro ev hev
  have h := CreateT.mem_catchEvs_not_network stale e ev hev
  cases ev <;> simp_all [isSubmitEv, isNetworkEv]

theorem CreateT.catchEvs_explorerCount_none (e : JsVal) :
    (CreateT.catchEvs none e).countP (fun ev => isExplorerEv ev) = 0 := by
  rcases e with ⟨i, m⟩ | s <;>
    simp only [CreateT.catchEvs] <;>
    first
    | (split_ifs <;> rfl)
    | rfl

theorem CreateT.tryBody_submit_char_createT (env : CreateT.Env) (s : CreateT.State)
    (pk : String) (tx : List Instr)
    (h : Ev.walletSubmit tx ∈ (CreateT.tryBody env s pk).2) :
    tx = [Instr.createAccount pk env.freshMint CreateT.MINT_SIZE
            env.rentLamports,
          Instr.initializeMint env.freshMint s.decimals pk pk,
          Instr.createAssociatedAccount pk (ataAddr env.freshMint pk) pk
            env.freshMint,
          Instr.mintTo env.freshMint (ataAddr env.freshMint pk) pk
            (createMintAmount s.decimals)] := by
  obtain ⟨pk0, mint, rent, bh, sendR, confR⟩ := env
  rcases sendR with e | sig
  · simp [CreateT.tryBody, CreateT.walletSubmit_not_mem_catchEvs] at h
    exact h
  · rcases confR with e | err
    · simp [CreateT.tryBody, CreateT.walletSubmit_not_mem_catchEvs] at h
      exact h
    · rcases err with _ | e
      · simp [CreateT.tryBody] at h
        exact h
      · simp [CreateT.tryBody, CreateT.walletSubmit_not_mem_catchEvs] at h
        exact h

theorem CreateT.submit_char_createT (env : CreateT.Env) (s : CreateT.State)
    (tx : List Instr)
    (h : Ev.walletSubmit tx ∈ (CreateT.handleCreateToken env s).2) :
    ∃ pk, env.publicKey = some pk ∧
      tx = [Instr.createAccount pk env.freshMint CreateT.MINT_SIZE
              env.rentLamports,
            Instr.initializeMint env.freshMint s.decimals pk pk,
            Instr.createAssociatedAccount pk (ataAddr env.freshMint pk) pk
              env.freshMint,
            Instr.mintTo env.freshMint (ataAddr env.freshMint pk) pk
              (createMintAmount s.decimals)] := by
  cases hpk : env.publicKey with
  | none => simp [CreateT.handleCreateToken, hpk] at h
  | some pk =>
      simp only [CreateT.handleCreateToken, hpk] at h
      split at h
      · simp at h
      · have := CreateT.tryBody_submit_char_createT env _ pk tx h
        exact ⟨pk, rfl, by simpa using this⟩

theorem CreateT.tryBody_confirm_char_createT (env : CreateT.Env) (s : CreateT.State)
    (pk sig : String) (a : Option (String × Nat))
    (h : Ev.rpcConfirm sig a ∈ (CreateT.tryBody env s pk).2) :
    a = none := by
  obtain ⟨pk0, mint, rent, bh, sendR, confR⟩ := env
  rcases sendR with e | sig₀
  · simp [CreateT.tryBody, CreateT.rpcConfirm_not_mem_catchEvs] at h
  · rcases confR with e | err
    · simp [CreateT.tryBody, CreateT.rpcConfirm_not_mem_catchEvs] at h
      exact h.2
    · rcases err with _ | e
      · simp [CreateT.tryBody] at h
        exact h.2
      · simp [CreateT.tryBody, CreateT.rpcConfirm_not_mem_catchEvs] at h
        exact h.2

theorem CreateT.confirm_char_createT (env : CreateT.Env) (s : CreateT.State)
    (sig : String) (a : Option (String × Nat))
    (h : Ev.rpcConfirm sig a ∈ (CreateT.handleCreateToken env s).2) :
    a = none := by
  cases hpk : env.publicKey with
  | none => simp [CreateT.handleCreateToken, hpk] at h
  | some pk =>
      simp only [CreateT.handleCreateToken, hpk] at h
      split at h
      · simp at h
      · exact CreateT.tryBody_confirm_char_createT env _ pk sig a h

theorem CreateT.tryBody_submitCount (env : CreateT.Env) (s : CreateT.State)
    (pk : String) :
    submitCount (CreateT.tryBody env s pk).2 = 1 := by
  obtain ⟨pk0, mint, rent, bh, sendR, confR⟩ := env
  rcases sendR with e | sig₀ <;>
    [skip; rcases confR with e | err] <;>
    [skip; skip; rcases err with _ | e] <;>
    simp [CreateT.tryBody, submitCount, isSubmitEv, List.countP_cons,
      List.countP_append, CreateT.catchEvs_submitCount] <;>
    intro a ha <;>
    have hn := CreateT.mem_catchEvs_not_network _ _ a ha <;>
    cases a <;> simp_all [isNetworkEv]

theorem CreateT.handle_counts_createT (env : CreateT.Env) (s : CreateT.State) :
    submitCount (CreateT.handleCreateToken env s).2 ≤ 1 ∧
    (∀ sig a, Ev.rpcConfirm sig a ∈ (CreateT.handleCreateToken env s).2 →
      submitCount (CreateT.handleCreateToken env s).2 = 1) := by
  cases hpk : env.publicKey with
  | none =>
      simp [CreateT.handleCreateToken, hpk, submitCount,
        List.countP_cons, List.countP_nil, isSubmitEv]
  | some pk =>
      simp only [CreateT.handleCreateToken, hpk]
      split
      · simp [submitCount, List.countP_cons, List.countP_nil, isSubmitEv]
      · have hs := CreateT.tryBody_submitCount env
          { s with isLoading := true } pk
        exact ⟨le_of_eq hs, fun _ _ _ => hs⟩

theorem CreateT.tryBody_explorer (env : CreateT.Env) (s : CreateT.State)
    (pk : String) (h : s.lastSignature = none) :
    explorerCount (CreateT.tryBody env s pk).2 = 0 := by
  obtain ⟨pk0, mint, rent, bh, sendR, confR⟩ := env
  rcases sendR with e | sig₀ <;>
    [skip; rcases confR with e | err] <;>
    [skip; skip; rcases err with _ | e] <;>
    simp [CreateT.tryBody, h, explorerCount, isExplorerEv, List.countP_cons,
      List.countP_append, CreateT.catchEvs_explorerCount_none] <;>
    intro a ha <;>
    have hn := List.countP_eq_zero.mp
      (CreateT.catchEvs_explorerCount_none _) a ha <;>
    cases a <;> simp_all [isExplorerEv]

theorem CreateT.explorer_stale (env : CreateT.Env) (s : CreateT.State)
    (h : s.lastSignature = none) :
    explorerCount (CreateT.handleCreateToken env s).2 = 0 := by
  cases hpk : env.publicKey with
  | none =>
      simp [CreateT.handleCreateToken, hpk, explorerCount, isExplorerEv,
        List.countP_cons, List.countP_nil]
  | some pk =>
      simp only [CreateT.handleCreateToken, hpk]
      split
      · simp [explorerCount, isExplorerEv, List.countP_cons, List.countP_nil]
      · exact CreateT.tryBody_explorer env { s with isLoading := true } pk h

theorem CreateT.loading_resets_createT (env : CreateT.Env) (s : CreateT.State)
    (h : s.isLoading = false) :
    ((CreateT.handleCreateToken env s).1).isLoading = false := by
  cases hpk : env.publicKey with
  | none => simp [CreateT.handleCreateToken, hpk, h]
  | some pk =>
      simp only [CreateT.handleCreateToken, hpk]
      split
      · exact h
      · rfl

theorem CreateT.disconnected_createT (env : CreateT.Env) (s : CreateT.State)
    (h : env.publicKey = none) :
    CreateT.handleCreateToken env s =
      (s, [Ev.toastError "Please connect your wallet first"]) := by
  simp [CreateT.handleCreateToken, h]

theorem SendL.tryBody_submit_char_sendL (env : SendL.Env) (s : SendL.State)
    (pk : String) (tx : List Instr)
    (h : Ev.walletSubmit tx ∈ (SendL.tryBody env s pk).2) :
    tx = (if env.destExists then ([] : List Instr) else
      [Instr.createAssociatedAccount pk
        (ataAddr s.mintAddress s.recipientAddress) s.recipientAddress
        s.mintAddress]) ++
      [Instr.transfer (ataAddr s.mintAddress pk)
        (ataAddr s.mintAddress s.recipientAddress) pk
        (legacyRawAmount env.amountNum)] := by
  obtain ⟨pk0, mv, rv, de, an, sr, cr⟩ := env
  rcases mv
  · simp [SendL.tryBody, SendL.catchEvs] at h
  · rcases rv
    · simp [SendL.tryBody, SendL.catchEvs] at h
    · rcases sr with es | sig₀
      · simp [SendL.tryBody, SendL.catchEvs] at h
        exact h
      · rcases cr with ec | u <;>
          simp [SendL.tryBody, SendL.catchEvs] at h <;>
          exact h

theorem SendL.submit_char_sendL (env : SendL.Env) (s : SendL.State)
    (tx : List Instr)
    (h : Ev.walletSubmit tx ∈ (SendL.handleSendToken env s).2) :
    ∃ pk, env.publicKey = some pk ∧
      tx = (if env.destExists then ([] : List Instr) else
        [Instr.createAssociatedAccount pk
          (ataAddr s.mintAddress s.recipientAddress) s.recipientAddress
          s.mintAddress]) ++
        [Instr.transfer (ataAddr s.mintAddress pk)
          (ataAddr s.mintAddress s.recipientAddress) pk
          (legacyRawAmount env.amountNum)] := by
  cases hpk : env.publicKey with
  | none => simp [SendL.handleSendToken, hpk] at h
  | some pk =>
      simp only [SendL.handleSendToken, hpk] at h
      split at h
      · simp at h
      · have := SendL.tryBody_submit_char_sendL env _ pk tx h
        exact ⟨pk, rfl, by simpa using this⟩

theorem SendL.confirm_char_sendL (env : SendL.Env) (s : SendL.State)
    (sig : String) (a : Option (String × Nat))
    (h : Ev.rpcConfirm sig a ∈ (SendL.handleSendToken env s).2) :
    a = none := by
  cases hpk : env.publicKey with
  | none => simp [SendL.handleSendToken, hpk] at h
  | some pk =>
      simp only [SendL.handleSendToken, hpk] at h
      split at h
      · simp at h
      · obtain ⟨pk0, mv, rv, de, an, sr, cr⟩ := env
        rcases mv
        · simp [SendL.tryBody, SendL.catchEvs] at h
        · rcases rv
          · simp [SendL.tryBody, SendL.catchEvs] at h
          · rcases sr with es | sig₀
            · simp [SendL.tryBody, SendL.catchEvs] at h
            · rcases cr with ec | u <;>
                simp [SendL.tryBody, SendL.catchEvs] at h <;>
                exact h.2

theorem SendL.handle_counts_sendL (env : SendL.Env) (s : SendL.State) :
    submitCount (SendL.handleSendToken env s).2 ≤ 1 ∧
    explorerCount (SendL.handleSendToken env s).2 = 0 ∧
    (∀ sig a, Ev.rpcConfirm sig a ∈ (SendL.handleSendToken env s).2 →
      submitCount (SendL.handleSendToken env s).2 = 1) := by
  cases hpk : env.publicKey with
  | none =>
      simp [SendL.handleSendToken, hpk, submitCount, explorerCount,
        isSubmitEv, isExplorerEv, List.countP_cons, List.countP_nil]
  | some pk =>
      simp only [SendL.handleSendToken, hpk]
      split
      · simp [submitCount, explorerCount, isSubmitEv, isExplorerEv,
          List.countP_cons, List.countP_nil]
      · obtain ⟨pk0, mv, rv, de, an, sr, cr⟩ := env
        rcases mv <;> [skip; rcases rv] <;>
          [skip; skip; rcases sr with es | sig₀] <;>
          [skip; skip; skip; rcases cr with ec | u] <;>
          simp [SendL.tryBody, SendL.catchEvs, submitCount, explorerCount,
            isSubmitEv, isExplorerEv, List.countP_cons, List.countP_append]

theorem SendL.loading_resets_sendL (env : SendL.Env) (s : SendL.State)
    (h : s.isLoading = false) :
    ((SendL.handleSendToken env s).1).isLoading = false := by
  cases hpk : env.publicKey with
  | none => simp [SendL.handleSendToken, hpk, h]
  | some pk =>
      simp only [SendL.handleSendToken, hpk]
      split
      · exact h
      · rfl

theorem SendL.disconnected_sendL (env : SendL.Env) (s : SendL.State)
    (h : env.publicKey = none) :
    SendL.handleSendToken env s =
      (s, [Ev.toastError "Please connect your wallet first"]) := by
  simp [SendL.handleSendToken, h]

theorem MintL.tryBody_submit_char_mintL (env : MintL.Env) (s : MintL.State)
    (pk : String) (tx : List Instr)
    (h : Ev.walletSubmit tx ∈ (MintL.tryBody env s pk).2) :
    tx = (if env.accountExists then ([] : List Instr) else
      [Instr.createAssociatedAccount pk (ataAddr s.mintAddress pk) pk
        s.mintAddress]) ++
      [Instr.mintTo s.mintAddress (ataAddr s.mintAddress pk) pk
        (legacyRawAmount env.amountNum)] := by
  obtain ⟨pk0, mv, ae, an, sr, cr⟩ := env
  rcases mv
  · simp [MintL.tryBody, MintL.catchEvs] at h
  · rcases sr with es | sig₀
    · simp [MintL.tryBody, MintL.catchEvs] at h
      exact h
    · rcases cr with ec | u <;>
        simp [MintL.tryBody, MintL.catchEvs] at h <;>
        exact h

theorem MintL.submit_char_mintL (env : MintL.Env) (s : MintL.State)
    (tx : List Instr)
    (h : Ev.walletSubmit tx ∈ (MintL.handleMintToken env s).2) :
    ∃ pk, env.publicKey = some pk ∧
      tx = (if env.accountExists then ([] : List Instr) else
        [Instr.createAssociatedAccount pk (ataAddr s.mintAddress pk) pk
          s.mintAddress]) ++
        [Instr.mintTo s.mintAddress (ataAddr s.mintAddress pk) pk
          (legacyRawAmount env.amountNum)] := by
  cases hpk : env.publicKey with
  | none => simp [MintL.handleMintToken, hpk] at h
  | some pk =>
      simp only [MintL.handleMintToken, hpk] at h
      split at h
      · simp at h
      · have := MintL.tryBody_submit_char_mintL env _ pk tx h
        exact ⟨pk, rfl, by simpa using this⟩

theorem MintL.confirm_char_mintL (env : MintL.Env) (s : MintL.State)
    (sig : String) (a : Option (String × Nat))
    (h : Ev.rpcConfirm sig a ∈ (MintL.handleMintToken env s).2) :
    a = none := by
  cases hpk : env.publicKey with
  | none => simp [MintL.handleMintToken, hpk] at h
  | some pk =>
      simp only [MintL.handleMintToken, hpk] at h
      split at h
      · simp at h
      · obtain ⟨pk0, mv, ae, an, sr, cr⟩ := env
        rcases mv
        · simp [MintL.tryBody, MintL.catchEvs] at h
        · rcases sr with es | sig₀
          · simp [MintL.tryBody, MintL.catchEvs] at h
          · rcases cr with ec | u <;>
              simp [MintL.tryBody, MintL.catchEvs] at h <;>
              exact h.2

theorem MintL.handle_counts_mintL (env : MintL.Env) (s : MintL.State) :
    submitCount (MintL.handleMintToken env s).2 ≤ 1 ∧
    explorerCount (MintL.handleMintToken env s).2 = 0 ∧
    (∀ sig a, Ev.rpcConfirm sig a ∈ (MintL.handleMintToken env s).2 →
      submitCount (MintL.handleMintToken env s).2 = 1) := by
  cases hpk : env.publicKey with
  | none =>
      simp [MintL.handleMintToken, hpk, submitCount, explorerCount,
        isSubmitEv, isExplorerEv, List.countP_cons, List.countP_nil]
  | some pk =>
      simp only [MintL.handleMintToken, hpk]
      split
      · simp [submitCount, explorerCount, isSubmitEv, isExplorerEv,
          List.countP_cons, List.countP_nil]
      · obtain ⟨pk0, mv, ae, an, sr, cr⟩ := env
        rcases mv <;> [skip; rcases sr with es | sig₀] <;>
          [skip; skip; rcases cr with ec | u] <;>
          simp [MintL.tryBody, MintL.catchEvs, submitCount, explorerCount,
            isSubmitEv, isExplorerEv, List.countP_cons, List.countP_append]

theorem MintL.loading_resets_mintL (env : MintL.Env) (s : MintL.State)
    (h : s.isLoading = false) :
    ((MintL.handleMintToken env s).1).isLoading = false := by
  cases hpk : env.publicKey with
  | none => simp [MintL.handleMintToken, hpk, h]
  | some pk =>
      simp only [MintL.handleMintToken, hpk]
      split
      · exact h
      · rfl

theorem MintL.disconnected_mintL (env : MintL.Env) (s : MintL.State)
    (h : env.publicKey = none) :
    MintL.handleMintToken env s =
      (s, [Ev.toastError "Please connect your wallet first"]) := by
  simp [MintL.handleMintToken, h]


/-- C5: whenever the destination/associated token account does not exist,
the transaction a send or mint panel submits is exactly one
create-associated-account instruction followed by the primary transfer or
mint-to instruction; when it exists, no create-associated-account
instruction is added (shown for the current send panel, the mint panel,
and the legacy send panel the claim cites). -/
theorem panels_create_account_before_primary :
    (∀ (env : SendT.Env) (s : SendT.State) (tx : List Instr),
      Ev.walletSubmit tx ∈ (SendT.handleSendToken env s).2 →
      txShape env.destExists isTransfer tx) ∧
    (∀ (env : MintT.Env) (s : MintT.State) (tx : List Instr),
      Ev.walletSubmit tx ∈ (MintT.handleMintToken env s).2 →
      txShape env.accountExists isMintTo tx) ∧
    (∀ (env : SendL.Env) (s : SendL.State) (tx : List Instr),
      Ev.walletSubmit tx ∈ (SendL.handleSendToken env s).2 →
      txShape env.destExists isTransfer tx) := by
  refine ⟨?_, ?_, ?_⟩
  · intro env s tx h
    obtain ⟨pk, d, hpk, hd, htx⟩ := SendT.submit_char_sendT env s tx h
    cases hde : env.destExists <;> rw [hde] at htx <;> subst htx
    · exact ⟨_, _, rfl, rfl, rfl⟩
    · exact ⟨rfl, _, rfl, rfl⟩
  · intro env s tx h
    obtain ⟨pk, d, hpk, hd, htx⟩ := MintT.submit_char_mintT env s tx h
    cases hde : env.accountExists <;> rw [hde] at htx <;> subst htx
    · exact ⟨_, _, rfl, rfl, rfl⟩
    · exact ⟨rfl, _, rfl, rfl⟩
  · intro env s tx h
    obtain ⟨pk, hpk, htx⟩ := SendL.submit_char_sendL env s tx h
    cases hde : env.destExists <;> rw [hde] at htx <;> subst htx
    · exact ⟨_, _, rfl, rfl, rfl⟩
    · exact ⟨rfl, _, rfl, rfl⟩

/-- Witness for C5: a concrete send-panel run against a missing
destination account submits create-associated-account followed by the
transfer. -/
theorem panels_create_account_before_primary_witness :
    txShape false isTransfer
      [Instr.createAssociatedAccount "alice" (ataAddr "M" "bob") "bob" "M",
       Instr.transfer (ataAddr "M" "alice") (ataAddr "M" "bob") "alice"
         (sendRawAmount 5 2)] :=
  panels_create_account_before_primary.1
    ⟨some "alice", true, true, Except.ok 2, true, false, 5, "bh", 7,
     Except.ok "sg", Except.ok ()⟩
    ⟨"M", "bob", "5", false, 9⟩ _ (by decide)

/-- C6: with the wallet disconnected (`publicKey` null) every panel submit
handler rejects locally: the whole observable behaviour is the single
connect-wallet error notification, zero network calls are issued, and the
panel state is returned unchanged (all five panel revisions). -/
theorem disconnected_rejects_locally :
    (∀ (env : SendT.Env) (s : SendT.State), env.publicKey = none →
      SendT.handleSendToken env s =
        (s, [Ev.toastError "Please connect your wallet first"]) ∧
      networkCalls (SendT.handleSendToken env s).2 = 0) ∧
    (∀ (env : MintT.Env) (s : MintT.State), env.publicKey = none →
      MintT.handleMintToken env s =
        (s, [Ev.toastError "Please connect your wallet first"]) ∧
      networkCalls (MintT.handleMintToken env s).2 = 0) ∧
    (∀ (env : CreateT.Env) (s : CreateT.State), env.publicKey = none →
      CreateT.handleCreateToken env s =
        (s, [Ev.toastError "Please connect your wallet first"]) ∧
      networkCalls (CreateT.handleCreateToken env s).2 = 0) ∧
    (∀ (env : SendL.Env) (s : SendL.State), env.publicKey = none →
      SendL.handleSendToken env s =
        (s, [Ev.toastError "Please connect your wallet first"]) ∧
      networkCalls (SendL.handleSendToken env s).2 = 0) ∧
    (∀ (env : MintL.Env) (s : MintL.State), env.publicKey = none →
      MintL.handleMintToken env s =
        (s, [Ev.toastError "Please connect your wallet first"]) ∧
      networkCalls (MintL.handleMintToken env s).2 = 0) := by
  refine ⟨fun env s h => ⟨SendT.disconnected_sendT env s h, ?_⟩,
    fun env s h => ⟨MintT.disconnected_mintT env s h, ?_⟩,
    fun env s h => ⟨CreateT.disconnected_createT env s h, ?_⟩,
    fun env s h => ⟨SendL.disconnected_sendL env s h, ?_⟩,
    fun env s h => ⟨MintL.disconnected_mintL env s h, ?_⟩⟩
  · rw [SendT.disconnected_sendT env s h]; rfl
  · rw [MintT.disconnected_mintT env s h]; rfl
  · rw [CreateT.disconnected_createT env s h]; rfl
  · rw [SendL.disconnected_sendL env s h]; rfl
  · rw [MintL.disconnected_mintL env s h]; rfl

/-- Witness for C6: a disconnected send panel with filled fields. -/
theorem disconnected_rejects_locally_witness :
    SendT.handleSendToken
        ⟨none, true, true, Except.ok 2, true, true, 5, "bh", 7,
         Except.ok "sg", Except.ok ()⟩
        ⟨"M", "bob", "5", false, 9⟩ =
      (⟨"M", "bob", "5", false, 9⟩,
       [Ev.toastError "Please connect your wallet first"]) ∧
    networkCalls (SendT.handleSendToken
        ⟨none, true, true, Except.ok 2, true, true, 5, "bh", 7,
         Except.ok "sg", Except.ok ()⟩
        ⟨"M", "bob", "5", false, 9⟩).2 = 0 :=
  disconnected_rejects_locally.1
    ⟨none, true, true, Except.ok 2, true, true, 5, "bh", 7,
     Except.ok "sg", Except.ok ()⟩
    ⟨"M", "bob", "5", false, 9⟩ rfl

/-- C7 counterexample: the claim says every panel confirms with the
blockhash and expiry obtained before submission, never omitted — but the
create panel awaits `confirmTransaction(signature, confirmed)` with no
blockhash anchor at all (`CreateToken.tsx` lines 113–116; it never even
reads `lastValidBlockHeight`).  A successful create-panel run emits a
confirmation event whose anchor is `none`. -/
theorem create_panel_confirms_without_blockhash :
    Ev.rpcConfirm "sig1" none ∈
      (CreateT.handleCreateToken
        ⟨some "alice", "MintX", 2039280, "bh", Except.ok "sig1",
         Except.ok none⟩
        ⟨"MyTok", "MTK", 9, false, none⟩).2 := by
  decide

/-- C7 (amended): the current send and mint panels confirm with exactly
the blockhash and expiry height fetched immediately before submission;
the create panel and the two legacy panels await confirmation by
signature only, passing no blockhash anchor. -/
theorem confirm_anchor_char :
    (∀ (env : SendT.Env) (s : SendT.State) (sig : String)
        (a : Option (String × Nat)),
      Ev.rpcConfirm sig a ∈ (SendT.handleSendToken env s).2 →
      a = some (env.blockhash, env.lastValidBlockHeight)) ∧
    (∀ (env : MintT.Env) (s : MintT.State) (sig : String)
        (a : Option (String × Nat)),
      Ev.rpcConfirm sig a ∈ (MintT.handleMintToken env s).2 →
      a = some (env.blockhash, env.lastValidBlockHeight)) ∧
    (∀ (env : CreateT.Env) (s : CreateT.State) (sig : String)
        (a : Option (String × Nat)),
      Ev.rpcConfirm sig a ∈ (CreateT.handleCreateToken env s).2 →
      a = none) ∧
    (∀ (env : SendL.Env) (s : SendL.State) (sig : String)
        (a : Option (String × Nat)),
      Ev.rpcConfirm sig a ∈ (SendL.handleSendToken env s).2 → a = none) ∧
    (∀ (env : MintL.Env) (s : MintL.State) (sig : String)
        (a : Option (String × Nat)),
      Ev.rpcConfirm sig a ∈ (MintL.handleMintToken env s).2 → a = none) :=
  ⟨SendT.confirm_char_sendT, MintT.confirm_char_mintT, CreateT.confirm_char_createT,
   SendL.confirm_char_sendL, MintL.confirm_char_mintL⟩

/-- Witness for the amended C7: a concrete send-panel run confirms with
the pre-submission blockhash "bh" and expiry height 7. -/
theorem confirm_anchor_char_witness :
    (some ("bh", 7) : Option (String × Nat)) = some ("bh", 7) :=
  confirm_anchor_char.1
    ⟨some "alice", true, true, Except.ok 2, true, true, 5, "bh", 7,
     Except.ok "sg", Except.ok ()⟩
    ⟨"M", "bob", "5", false, 9⟩ "sg" (some ("bh", 7)) (by decide)

/-- C8 counterexample: in a send-panel execution whose confirmation fails
after the transaction was submitted, exactly one wallet submission is made
(no resubmission), but no explorer-link notification appears anywhere in
the trace — the send panel has no explorer link at all, so the claim that
the user is directed to check the chain explorer is false. -/
theorem send_panel_confirm_failure_no_explorer :
    submitCount (SendT.handleSendToken
        ⟨some "alice", true, true, Except.ok 2, true, true, 5, "bh", 7,
         Except.ok "sg", Except.error (JsVal.errObj 1 "timeout")⟩
        ⟨"M", "bob", "5", false, 9⟩).2 = 1 ∧
    Ev.rpcConfirm "sg" (some ("bh", 7)) ∈
      (SendT.handleSendToken
        ⟨some "alice", true, true, Except.ok 2, true, true, 5, "bh", 7,
         Except.ok "sg", Except.error (JsVal.errObj 1 "timeout")⟩
        ⟨"M", "bob", "5", false, 9⟩).2 ∧
    explorerCount (SendT.handleSendToken
        ⟨some "alice", true, true, Except.ok 2, true, true, 5, "bh", 7,
         Except.ok "sg", Except.error (JsVal.errObj 1 "timeout")⟩
        ⟨"M", "bob", "5", false, 9⟩).2 = 0 := by
  decide

/-- C8 (amended): no panel ever resubmits — every handler invocation makes
at most one wallet submission, and exactly one in any execution that
reaches a confirmation call; the send and mint panels never emit an
explorer link, and the create panel emits one only when a signature stored
by a previous invocation is present in its (stale) `lastSignature` state. -/
theorem no_automatic_resubmission :
    (∀ (env : SendT.Env) (s : SendT.State),
      submitCount (SendT.handleSendToken env s).2 ≤ 1 ∧
      (∀ sig a, Ev.rpcConfirm sig a ∈ (SendT.handleSendToken env s).2 →
        submitCount (SendT.handleSendToken env s).2 = 1) ∧
      explorerCount (SendT.handleSendToken env s).2 = 0) ∧
    (∀ (env : MintT.Env) (s : MintT.State),
      submitCount (MintT.handleMintToken env s).2 ≤ 1 ∧
      (∀ sig a, Ev.rpcConfirm sig a ∈ (MintT.handleMintToken env s).2 →
        submitCount (MintT.handleMintToken env s).2 = 1) ∧
      explorerCount (MintT.handleMintToken env s).2 = 0) ∧
    (∀ (env : CreateT.Env) (s : CreateT.State),
      submitCount (CreateT.handleCreateToken env s).2 ≤ 1 ∧
      (∀ sig a, Ev.rpcConfirm sig a ∈ (CreateT.handleCreateToken env s).2 →
        submitCount (CreateT.handleCreateToken env s).2 = 1) ∧
      (s.lastSignature = none →
        explorerCount (CreateT.handleCreateToken env s).2 = 0)) ∧
    (∀ (env : SendL.Env) (s : SendL.State),
      submitCount (SendL.handleSendToken env s).2 ≤ 1 ∧
      (∀ sig a, Ev.rpcConfirm sig a ∈ (SendL.handleSendToken env s).2 →
        submitCount (SendL.handleSendToken env s).2 = 1) ∧
      explorerCount (SendL.handleSendToken env s).2 = 0) ∧
    (∀ (env : MintL.Env) (s : MintL.State),
      submitCount (MintL.handleMintToken env s).2 ≤ 1 ∧
      (∀ sig a, Ev.rpcConfirm sig a ∈ (MintL.handleMintToken env s).2 →
        submitCount (MintL.handleMintToken env s).2 = 1) ∧
      explorerCount (MintL.handleMintToken env s).2 = 0) := by
  refine ⟨fun env s => ?_, fun env s => ?_, fun env s => ?_,
    fun env s => ?_, fun env s => ?_⟩
  · obtain ⟨h1, h2, h3⟩ := SendT.handle_counts_sendT env s
    exact ⟨h1, h3, h2⟩
  · obtain ⟨h1, h2, h3⟩ := MintT.handle_counts_mintT env s
    exact ⟨h1, h3, h2⟩
  · obtain ⟨h1, h2⟩ := CreateT.handle_counts_createT env s
    exact ⟨h1, h2, fun hn => CreateT.explorer_stale env s hn⟩
  · obtain ⟨h1, h2, h3⟩ := SendL.handle_counts_sendL env s
    exact ⟨h1, h3, h2⟩
  · obtain ⟨h1, h2, h3⟩ := MintL.handle_counts_mintL env s
    exact ⟨h1, h3, h2⟩

/-- Witness for the amended C8: in a send-panel run that reaches
confirmation, the submission count is exactly one and no explorer link is
shown. -/
theorem no_automatic_resubmission_witness :
    submitCount (SendT.handleSendToken
        ⟨some "carol", true, true, Except.ok 0, true, true, 3, "bh2", 11,
         Except.ok "sg2", Except.ok ()⟩
        ⟨"M2", "dave", "3", false, 9⟩).2 = 1 ∧
    explorerCount (SendT.handleSendToken
        ⟨some "carol", true, true, Except.ok 0, true, true, 3, "bh2", 11,
         Except.ok "sg2", Except.ok ()⟩
        ⟨"M2", "dave", "3", false, 9⟩).2 = 0 :=
  ⟨(no_automatic_resubmission.1
      ⟨some "carol", true, true, Except.ok 0, true, true, 3, "bh2", 11,
       Except.ok "sg2", Except.ok ()⟩
      ⟨"M2", "dave", "3", false, 9⟩).2.1 "sg2" (some ("bh2", 11)) (by decide),
   (no_automatic_resubmission.1
      ⟨some "carol", true, true, Except.ok 0, true, true, 3, "bh2", 11,
       Except.ok "sg2", Except.ok ()⟩
      ⟨"M2", "dave", "3", false, 9⟩).2.2⟩

/-- C9: from an idle panel (loading flag clear), every invocation of a
submit handler — success, validation failure, or any modelled thrown
error — returns with the loading flag clear again: the panel is
interactive after any outcome (all five panel revisions). -/
theorem panels_return_to_idle :
    (∀ (env : SendT.Env) (s : SendT.State), s.isLoading = false →
      ((SendT.handleSendToken env s).1).isLoading = false) ∧
    (∀ (env : MintT.Env) (s : MintT.State), s.isLoading = false →
      ((MintT.handleMintToken env s).1).isLoading = false) ∧
    (∀ (env : CreateT.Env) (s : CreateT.State), s.isLoading = false →
      ((CreateT.handleCreateToken env s).1).isLoading = false) ∧
    (∀ (env : SendL.Env) (s : SendL.State), s.isLoading = false →
      ((SendL.handleSendToken env s).1).isLoading = false) ∧
    (∀ (env : MintL.Env) (s : MintL.State), s.isLoading = false →
      ((MintL.handleMintToken env s).1).isLoading = false) :=
  ⟨SendT.loading_resets_sendT, MintT.loading_resets_mintT, CreateT.loading_resets_createT,
   SendL.loading_resets_sendL, MintL.loading_resets_mintL⟩

/-- Witness for C9: a send-panel run whose submission is rejected by the
wallet still ends with the loading flag clear. -/
theorem panels_return_to_idle_witness :
    ((SendT.handleSendToken
        ⟨some "erin", true, true, Except.ok 4, true, false, 2, "bh3", 13,
         Except.error (JsVal.errObj 2 "rejected"), Except.ok ()⟩
        ⟨"M3", "frank", "2", false, 9⟩).1).isLoading = false :=
  panels_return_to_idle.1
    ⟨some "erin", true, true, Except.ok 4, true, false, 2, "bh3", 13,
     Except.error (JsVal.errObj 2 "rejected"), Except.ok ()⟩
    ⟨"M3", "frank", "2", false, 9⟩ rfl

/-- C10: the create panel always appends, after create-account,
initialize-mint and create-associated-account, a mint-to instruction
minting the fixed initial supply 1,000,000,000 × 10^decimals raw units
(one billion whole tokens) to the creator's associated account, exactly —
the JS double product is exact for every decimals value 0–9 — and the
decimals-change handler keeps the chosen decimals within 0–9. -/
theorem create_token_mints_fixed_initial_supply :
    (∀ (cur : Nat) (v : String) (p : Option Int), cur ≤ 9 →
      CreateT.decimalsChange cur v p ≤ 9) ∧
    (∀ (env : CreateT.Env) (s : CreateT.State) (pk : String)
        (tx : List Instr),
      env.publicKey = some pk → s.decimals ≤ 9 →
      Ev.walletSubmit tx ∈ (CreateT.handleCreateToken env s).2 →
      tx = [Instr.createAccount pk env.freshMint CreateT.MINT_SIZE
              env.rentLamports,
            Instr.initializeMint env.freshMint s.decimals pk pk,
            Instr.createAssociatedAccount pk (ataAddr env.freshMint pk) pk
              env.freshMint,
            Instr.mintTo env.freshMint (ataAddr env.freshMint pk) pk
              (1000000000 * 10 ^ s.decimals)]) := by
  constructor
  · intro cur v p hcur
    unfold CreateT.decimalsChange
    split
    · omega
    · unfold CreateT.handleDecimalsChange
      rcases p with _ | q
      · exact hcur
      · dsimp only
        split
        · next hq => omega
        · exact hcur
  · intro env s pk tx hpk hd hmem
    obtain ⟨pk₂, hpk₂, htx⟩ := CreateT.submit_char_createT env s tx hmem
    rw [hpk] at hpk₂
    injection hpk₂ with hpe
    subst hpe
    rw [createMintAmount_exact s.decimals hd] at htx
    exact htx

/-- Witness for C10: a concrete create-panel run with decimals 9 submits
the four-instruction transaction minting exactly 10^18 raw units, and the
decimals-change handler accepts 7. -/
theorem create_token_mints_fixed_initial_supply_witness :
    CreateT.decimalsChange 9 "7" (some 7) ≤ 9 ∧
    [Instr.createAccount "alice" "MintX" CreateT.MINT_SIZE 2039280,
     Instr.initializeMint "MintX" 9 "alice" "alice",
     Instr.createAssociatedAccount "alice" (ataAddr "MintX" "alice")
       "alice" "MintX",
     Instr.mintTo "MintX" (ataAddr "MintX" "alice") "alice"
       1000000000000000000] =
    [Instr.createAccount "alice" "MintX" CreateT.MINT_SIZE 2039280,
     Instr.initializeMint "MintX" 9 "alice" "alice",
     Instr.createAssociatedAccount "alice" (ataAddr "MintX" "alice")
       "alice" "MintX",
     Instr.mintTo "MintX" (ataAddr "MintX" "alice") "alice"
       (1000000000 * 10 ^ 9)] :=
  ⟨create_token_mints_fixed_initial_supply.1 9 "7" (some 7) (by decide),
   create_token_mints_fixed_initial_supply.2
     ⟨some "alice", "MintX", 2039280, "bh", Except.ok "sig1",
      Except.ok none⟩
     ⟨"MyTok", "MTK", 9, false, none⟩ "alice" _ rfl (by decide) (by decide)⟩
